import Mathlib

/-!
Shallow embedding of the x5chain certificate-chain module
(src/definitions/x509/x5chain.rs) of the isomdl repository, together with
theorems settling the frozen claims about it.

Conventions of the embedding:
* Rust `Vec<u8>` becomes `List Nat` (byte values; no arithmetic overflows
  occur in the modelled code, every byte is used as an uninterpreted value).
* Fallible Rust code (`Result`) becomes `Except`.
* Third-party collaborators (the `x509_cert`/`der` parser, elliptic-curve
  signature primitives, the trust-anchor module, PEM decoding) are fields of
  an explicit environment structure `CryptoEnv`; the orchestration code from
  x5chain.rs is embedded over that environment exactly as written.
* The byte-level behaviour of `serde_cbor::from_slice::<Vec<u8>>` and of
  `der::Length::to_der` is embedded concretely, since two claims hinge on it.
-/

/-- X509 (x5chain.rs line 32): a plain owner of one encoded certificate,
holding exactly the raw bytes.  Equality and hashing in the source are derived
over the bytes, which `DecidableEq` mirrors. -/
structure X509 where
  bytes : List Nat
deriving DecidableEq, Repr

/-- Modelled from the spec: the error enum of the x509 module
(`crate::definitions::x509::error::Error`) is not among the shown sources.
The spec describes a tagged collection of error kinds returned as data.
`validationError` mirrors the `ValidationError(String)` constructor that
x5chain.rs builds directly; `decodingError` stands for every error converted
into this type via `From` (DER parse errors, anchor lookup errors), with an
abstract numeric tag distinguishing values. -/
inductive X509Error where
  | validationError (msg : String)
  | decodingError (tag : Nat)
deriving DecidableEq, Repr

/-- Modelled from the spec: `crate::presentation::reader::Error`, the terminal
decode-error type of the wire decoder, is not among the shown sources.  The
spec describes construction/decode errors that abort the operation and are
surfaced as a single terminal error.  `mdocAuth` mirrors the
`Error::MdocAuth(String)` values built in x5chain.rs (the formatted debug dump
of the offending value is dropped from the message); `cborDecodingError`
stands for a `serde_cbor::Error` converted via `From`; `nonEmptyVec` stands
for the error of `NonEmptyVec::try_from` converted via `From`. -/
inductive ReaderError where
  | mdocAuth (msg : String)
  | cborDecodingError
  | nonEmptyVec
deriving DecidableEq, Repr

/-- Modelled from the spec: `NonEmptyVec` (crate `definitions::helpers`, not
among the shown sources) is a vector with the invariant length at least one;
the spec states the invariant is enforced at construction time. -/
structure NonEmptyVec (α : Type) where
  toList : List α
  nonempty : toList ≠ []

/-- Modelled from the spec: `NonEmptyVec::try_from` on a `Vec` fails exactly
when the vector is empty (the spec: build fails if zero certificates were
accumulated, the chain must be non-empty). -/
def NonEmptyVec.try_from {α : Type} (l : List α) : Option (NonEmptyVec α) :=
  match l with
  | [] => none
  | x :: xs => some ⟨x :: xs, List.cons_ne_nil x xs⟩

/-- X5Chain (x5chain.rs line 56): a newtype over `NonEmptyVec<X509>`. -/
structure X5Chain where
  v : NonEmptyVec X509

/-- The underlying certificate list of a chain (`self.0.as_ref()`). -/
def X5Chain.certs (c : X5Chain) : List X509 := c.v.toList

/-- CborValue: the fragment of `serde_cbor::Value` relevant to the wire
decoder (`Null`, `Bool`, `Integer`, `Text`, `Bytes`, `Array`, `Map`). -/
inductive CborValue where
  | null
  | boolean (b : Bool)
  | integer (i : Int)
  | text (s : String)
  | bytes (b : List Nat)
  | array (items : List CborValue)
  | map (pairs : List (CborValue × CborValue))

/-- Predicate used to state the wire-decoder claims: is the value a CBOR byte
string. -/
def CborValue.is_bytes : CborValue → Bool
  | .bytes _ => true
  | _ => false

/-- Predicate used to state the wire-decoder claims: is the value a CBOR byte
string or an array. -/
def CborValue.is_bytes_or_array : CborValue → Bool
  | .bytes _ => true
  | .array _ => true
  | _ => false

/-- Auxiliary loop of `has_unique_elements` (x5chain.rs line 199): the
`HashSet` of already-seen elements is modelled as the list of elements
inserted so far, since the function only observes membership. -/
def has_unique_elements_go {α : Type} [DecidableEq α] (seen : List α) : List α → Bool
  | [] => true
  | x :: xs => if x ∈ seen then false else has_unique_elements_go (x :: seen) xs

/-- has_unique_elements (x5chain.rs line 194): folds the input through a set,
returning false as soon as an insertion hits an already-present element. -/
def has_unique_elements {α : Type} [DecidableEq α] (l : List α) : Bool :=
  has_unique_elements_go [] l

/-- CryptoEnv: the third-party and collaborator functions that x5chain.rs
orchestrates, at their exact call boundaries.  Fields correspond to:
`x509_cert::Certificate::from_der` (with its error already converted into the
x509 error type, as `e.into()` does at every use site), the SPKI-to-public-key
conversion inside `X509::public_key` (the source discards the cause and
replaces it with a fixed `ValidationError` string, so only success or failure
is observable), `cert.signature.raw_bytes()`, `ecdsa::Signature::from_der`,
`tbs_certificate.to_der()`, `Verifier::verify`, the trust-anchor collaborator
contract (`check_validity_period`, `find_anchor`,
`validate_with_trust_anchor`), the canonical certificate re-encoding used by
the builder, and `pem_rfc7468::decode_vec` (projected to the decoded bytes,
component `.1` of the pair).  `VerifyingKey::from` is an infallible wrapper
and is folded into the `PubKey` type. -/
structure CryptoEnv where
  Cert : Type
  PubKey : Type
  Sig : Type
  TrustAnchor : Type
  TrustAnchorRegistry : Type
  cert_from_der : List Nat → Except X509Error Cert
  spki_to_key : Cert → Option PubKey
  signature_raw : Cert → List Nat
  signature_from_der : List Nat → Except X509Error Sig
  tbs_to_der : Cert → Except X509Error (List Nat)
  verify : PubKey → List Nat → Sig → Except X509Error Unit
  check_validity_period : Cert → List X509Error
  find_anchor : Cert → Option TrustAnchorRegistry → Except X509Error (Option TrustAnchor)
  validate_with_trust_anchor : X509 → TrustAnchor → List X509Error
  cert_to_der : Cert → Except X509Error (List Nat)
  pem_decode : List Nat → Except String (List Nat)

/-- X509::public_key (x5chain.rs lines 37-52): parse the stored bytes with
`Certificate::from_der` (propagating the converted parse error), then convert
the subject-public-key-info; on conversion failure the source replaces the
cause with the fixed string below. -/
def X509.public_key (env : CryptoEnv) (x : X509) : Except X509Error env.PubKey :=
  match env.cert_from_der x.bytes with
  | .error e => .error e
  | .ok cert =>
    match env.spki_to_key cert with
    | some k => .ok k
    | none => .error (X509Error.validationError "could not parse public key from pkcs8 spki")

/-- check_signature (x5chain.rs lines 141-148): extract the issuer public
key, parse the target certificate, decode its signature field from DER,
re-encode the to-be-signed portion, and verify.  The first failing step is
returned, so each pair contributes at most one error. -/
def check_signature (env : CryptoEnv) (target issuer : X509) : Except X509Error Unit := do
  let parent_public_key ← X509.public_key env issuer
  let child_cert ← env.cert_from_der target.bytes
  let sig ← env.signature_from_der (env.signature_raw child_cert)
  let bytes ← env.tbs_to_der child_cert
  env.verify parent_public_key bytes sig

/-- windows2: the adjacent pairs of a list, in order, mirroring
`slice::windows(2)` with the two components named as in the source
(target first, issuer second). -/
def windows2 {α : Type} : List α → List (α × α)
  | a :: b :: rest => (a, b) :: windows2 (b :: rest)
  | _ => []

/-- X5Chain::validate (x5chain.rs lines 83-138), embedded with the mutable
`errors` vector threaded explicitly through the three sequential phases, each
appending exactly where the source pushes. -/
def X5Chain.validate (env : CryptoEnv) (chain : X5Chain)
    (trust_anchor_registry : Option env.TrustAnchorRegistry) : List X509Error :=
  let x5chain := chain.certs
  let errors : List X509Error := []
  let errors := (windows2 x5chain).foldl (fun errors chain_link =>
    match check_signature env chain_link.1 chain_link.2 with
    | .ok _ => errors
    | .error e => errors ++ [e]) errors
  let errors := x5chain.foldl (fun errors x509 =>
    match env.cert_from_der x509.bytes with
    | .ok c => errors ++ env.check_validity_period c
    | .error e => errors ++ [e]) errors
  let errors :=
    match x5chain.getLast? with
    | some x509 =>
      match env.cert_from_der x509.bytes with
      | .ok cert =>
        match env.find_anchor cert trust_anchor_registry with
        | .ok (some trust_anchor) => errors ++ env.validate_with_trust_anchor x509 trust_anchor
        | .ok none => errors ++ [X509Error.validationError "No matching trust anchor found"]
        | .error e => errors ++ [e]
      | .error e => errors ++ [e]
    | none => errors ++ [X509Error.validationError "Empty certificate chain"]
  errors

/-- The signature pass of the orchestrator in isolation: for every adjacent
pair, in chain order, one error when `check_signature` fails, nothing
otherwise, continuing regardless. -/
def signature_pass (env : CryptoEnv) : List X509 → List X509Error
  | a :: b :: rest =>
    (match check_signature env a b with
     | .ok _ => []
     | .error e => [e]) ++ signature_pass env (b :: rest)
  | _ => []

/-- The validity pass of the orchestrator in isolation: for every certificate
in chain order, the collaborator validity errors when the certificate parses,
and otherwise the single parse error with the validity sub-check skipped. -/
def validity_pass (env : CryptoEnv) : List X509 → List X509Error
  | [] => []
  | x509 :: rest =>
    (match env.cert_from_der x509.bytes with
     | .ok c => env.check_validity_period c
     | .error e => [e]) ++ validity_pass env rest

/-- The anchor pass of the orchestrator in isolation, acting on the last
certificate of the chain. -/
def anchor_pass (env : CryptoEnv) (certs : List X509)
    (trust_anchor_registry : Option env.TrustAnchorRegistry) : List X509Error :=
  match certs.getLast? with
  | some x509 =>
    match env.cert_from_der x509.bytes with
    | .ok cert =>
      match env.find_anchor cert trust_anchor_registry with
      | .ok (some trust_anchor) => env.validate_with_trust_anchor x509 trust_anchor
      | .ok none => [X509Error.validationError "No matching trust anchor found"]
      | .error e => [e]
    | .error e => [e]
  | none => [X509Error.validationError "Empty certificate chain"]

/-- X5Chain::into_cbor (x5chain.rs lines 69-81): a one-certificate chain
becomes a single CBOR byte string of the stored bytes, any other chain an
array of byte strings in chain order. -/
def X5Chain.into_cbor (chain : X5Chain) : CborValue :=
  match chain.certs with
  | [cert] => CborValue.bytes cert.bytes
  | certs => CborValue.array (certs.map (fun x509 => CborValue.bytes x509.bytes))

/-- The signature-phase fold of `validate` from an arbitrary accumulator
equals the accumulator followed by the isolated signature pass. -/
theorem sig_foldl_eq (env : CryptoEnv) : (certs : List X509) → (init : List X509Error) →
    (windows2 certs).foldl (fun errors chain_link =>
      match check_signature env chain_link.1 chain_link.2 with
      | .ok _ => errors
      | .error e => errors ++ [e]) init = init ++ signature_pass env certs
  | [], init => by simp [windows2, signature_pass]
  | [a], init => by simp [windows2, signature_pass]
  | a :: b :: rest, init => by
    rw [windows2, List.foldl_cons, sig_foldl_eq env (b :: rest)]
    cases h : check_signature env a b <;>
      simp [signature_pass, h, List.append_assoc]

/-- The validity-phase fold of `validate` from an arbitrary accumulator
equals the accumulator followed by the isolated validity pass. -/
theorem val_foldl_eq (env : CryptoEnv) : (certs : List X509) → (init : List X509Error) →
    certs.foldl (fun errors x509 =>
      match env.cert_from_der x509.bytes with
      | .ok c => errors ++ env.check_validity_period c
      | .error e => errors ++ [e]) init = init ++ validity_pass env certs
  | [], init => by simp [validity_pass]
  | x :: rest, init => by
    rw [List.foldl_cons, val_foldl_eq env rest]
    cases h : env.cert_from_der x.bytes <;>
      simp [validity_pass, h, List.append_assoc]

/-- Decomposition of the orchestrator: `validate` returns exactly the
concatenation of the three passes, in order. -/
theorem validate_eq_passes (env : CryptoEnv) (chain : X5Chain)
    (reg : Option env.TrustAnchorRegistry) :
    X5Chain.validate env chain reg =
      signature_pass env chain.certs ++ validity_pass env chain.certs ++
        anchor_pass env chain.certs reg := by
  unfold X5Chain.validate
  dsimp only
  rw [sig_foldl_eq env chain.certs, List.nil_append, val_foldl_eq env chain.certs]
  unfold anchor_pass
  cases hl : chain.certs.getLast? with
  | none => simp [List.append_assoc]
  | some x509 =>
    cases hc : env.cert_from_der x509.bytes with
    | error e => simp [hc, List.append_assoc]
    | ok cert =>
      cases hf : env.find_anchor cert reg with
      | error e => simp [hc, hf, List.append_assoc]
      | ok o => cases o <;> simp [hc, hf, List.append_assoc]

/-- take_be: read exactly `k` bytes from the stream as one big-endian value,
the way serde_cbor reads its 8, 16, 32 and 64 bit argument fields. -/
def take_be : Nat → List Nat → Option (Nat × List Nat)
  | 0, l => some (0, l)
  | _ + 1, [] => none
  | k + 1, b :: l =>
    match take_be k l with
    | some (v, r) => some (b * 0x100 ^ k + v, r)
    | none => none

/-- parse_uint: one CBOR major-type-0 (unsigned integer) data item from a byte
stream, returning the value and the remaining bytes.  Widths follow RFC 8949:
additional information 0 to 23 is the value itself, 24 to 27 read 1, 2, 4 or 8
following bytes.  Any other initial byte is not an unsigned integer. -/
def parse_uint : List Nat → Option (Nat × List Nat)
  | b :: rest =>
    if b ≤ 0x17 then some (b, rest)
    else if b = 0x18 then take_be 1 rest
    else if b = 0x19 then take_be 2 rest
    else if b = 0x1a then take_be 4 rest
    else if b = 0x1b then take_be 8 rest
    else none
  | [] => none

/-- parse_array_len: a CBOR definite-length array header (major type 4),
returning the element count and the remaining bytes. -/
def parse_array_len : List Nat → Option (Nat × List Nat)
  | b :: rest =>
    if 0x80 ≤ b ∧ b ≤ 0x97 then some (b - 0x80, rest)
    else if b = 0x98 then take_be 1 rest
    else if b = 0x99 then take_be 2 rest
    else if b = 0x9a then take_be 4 rest
    else if b = 0x9b then take_be 8 rest
    else none
  | [] => none

/-- parse_u8_list: exactly `n` array elements, each a CBOR unsigned integer
that must fit in a `u8` (serde deserializes the elements of a `Vec<u8>` as
`u8`, rejecting values above 255 and every non-integer item). -/
def parse_u8_list : Nat → List Nat → Option (List Nat × List Nat)
  | 0, rest => some ([], rest)
  | n + 1, rest =>
    match parse_uint rest with
    | some (v, r) =>
      if v ≤ 0xff then
        match parse_u8_list n r with
        | some (vs, r2) => some (v :: vs, r2)
        | none => none
      else none
    | none => none

/-- from_slice_vec_u8: the byte-level behaviour of
`serde_cbor::from_slice::<Vec<u8>>`, which the wire decoder applies to the
payload of every CBOR byte string it receives.  The generic serde `Vec<u8>`
deserializer goes through the sequence visitor, so the input must be a CBOR
array of unsigned integers fitting in a byte; a CBOR byte string is delivered
to the visitor through its bytes entry point, which the sequence visitor does
not implement, and fails like every other shape.  `from_slice` additionally
rejects trailing input.  Only definite-length encodings are modelled (these
include every encoding the code base itself produces); nothing below depends
on the omitted indefinite-length forms, because every successful
`serde_cbor` parse, definite or not, consumes strictly more input bytes than
the number of elements it returns, which is the only property the round-trip
results rely on. -/
def from_slice_vec_u8 (data : List Nat) : Except ReaderError (List Nat) :=
  match parse_array_len data with
  | some (n, rest) =>
    match parse_u8_list n rest with
    | some (vals, []) => .ok vals
    | _ => .error ReaderError.cborDecodingError
  | none => .error ReaderError.cborDecodingError

/-- length_to_der: the DER encoding of a length value as produced by
`der::Length::encode` (and hence by `Length::to_der`): short form below 0x80,
long form with a count prefix otherwise.  `der::Length` is a 32-bit value, so
the four-byte form is the widest one reachable; the final arm truncates wider
values the way the 32-bit representation would. -/
def length_to_der (n : Nat) : List Nat :=
  if n < 0x80 then [n]
  else if n < 0x100 then [0x81, n]
  else if n < 0x10000 then [0x82, n / 0x100, n % 0x100]
  else if n < 0x1000000 then [0x83, n / 0x10000, n / 0x100 % 0x100, n % 0x100]
  else [0x84, n / 0x1000000 % 0x100, n / 0x10000 % 0x100, n / 0x100 % 0x100, n % 0x100]

/-- Builder (x5chain.rs line 203): the accumulator of pending certificates. -/
structure Builder where
  certs : List X509
deriving DecidableEq, Repr

/-- Builder::with_der (x5chain.rs lines 224-235): parse the input with
`Certificate::from_der`, then store `cert.encode_to_vec(&mut vec![])?.to_der()?`.
`Encode::encode_to_vec` returns the `der::Length` written (the byte count of
the canonical encoding), and the subsequent `.to_der()` is therefore
`Length::to_der`, producing the DER length octets of that count — not the
certificate encoding itself.  The embedding mirrors this faithfully:
the stored bytes are `length_to_der` of the length of the canonical
re-encoding. -/
def Builder.with_der (env : CryptoEnv) (b : Builder) (data : List Nat) :
    Except String Builder :=
  match env.cert_from_der data with
  | .error _ => .error "unable to parse certificate from der encoding"
  | .ok cert =>
    match env.cert_to_der cert with
    | .error _ => .error "unable to convert certificate to bytes"
    | .ok der => .ok ⟨b.certs ++ [⟨length_to_der der.length⟩]⟩

/-- Builder::with_pem (x5chain.rs lines 209-223): decode the PEM block with
`pem_rfc7468::decode_vec` (keeping component `.1`, the content bytes), then
proceed exactly as `with_der` does on those bytes (the source duplicates the
same `encode_to_vec` and `Length::to_der` steps). -/
def Builder.with_pem (env : CryptoEnv) (b : Builder) (data : List Nat) :
    Except String Builder :=
  match env.pem_decode data with
  | .error _ => .error "unable to parse pem"
  | .ok bytes =>
    match env.cert_from_der bytes with
    | .error _ => .error "unable to parse certificate from der"
    | .ok cert =>
      match env.cert_to_der cert with
      | .error _ => .error "unable to convert certificate to bytes"
      | .ok der => .ok ⟨b.certs ++ [⟨length_to_der der.length⟩]⟩

/-- Builder::build (x5chain.rs lines 246-250): finalize through
`NonEmptyVec::try_from`, failing exactly when nothing was accumulated. -/
def Builder.build (b : Builder) : Except String X5Chain :=
  match NonEmptyVec.try_from b.certs with
  | some v => .ok ⟨v⟩
  | none => .error "at least one certificate must be given to the builder"

/-- The element loop of the array branch of `validate_x5chain` (x5chain.rs
lines 166-175): each element must be a CBOR byte string, whose payload is in
turn decoded with `serde_cbor::from_slice::<Vec<u8>>`; the first failure of
either kind aborts with that terminal error. -/
def decode_elements : List CborValue → Except ReaderError (List X509)
  | [] => .ok []
  | CborValue.bytes b :: rest =>
    match from_slice_vec_u8 b with
    | .error e => .error e
    | .ok der =>
      match decode_elements rest with
      | .error e => .error e
      | .ok tail => .ok (⟨der⟩ :: tail)
  | _ :: _ =>
    .error (ReaderError.mdocAuth
      "Expecting x509 certificate in the x5chain to be a cbor encoded bytestring")

/-- validate_x5chain (x5chain.rs lines 151-192): the wire decoder.  A single
byte string becomes a one-element chain (its payload run through
`serde_cbor::from_slice`), an array is decoded element-wise, checked for
duplicate certificates, and lifted through `NonEmptyVec::try_from`; every
other shape is a terminal error.  On success the validation orchestrator is
invoked and its error list returned. -/
def validate_x5chain (env : CryptoEnv) (x5chain : CborValue)
    (trust_anchor_registry : Option env.TrustAnchorRegistry) :
    Except ReaderError (List X509Error) :=
  match x5chain with
  | CborValue.bytes bytes =>
    match from_slice_vec_u8 bytes with
    | .error e => .error e
    | .ok der =>
      match NonEmptyVec.try_from [X509.mk der] with
      | some v => .ok (X5Chain.validate env ⟨v⟩ trust_anchor_registry)
      | none => .error ReaderError.nonEmptyVec
  | CborValue.array x509s =>
    match decode_elements x509s with
    | .error e => .error e
    | .ok chain =>
      if has_unique_elements chain then
        match NonEmptyVec.try_from chain with
        | some v => .ok (X5Chain.validate env ⟨v⟩ trust_anchor_registry)
        | none => .error ReaderError.nonEmptyVec
      else
        .error (ReaderError.mdocAuth
          "x5chain header contains at least one duplicate certificate")
  | _ =>
    .error (ReaderError.mdocAuth
      "Expecting x509 certificate in the x5chain to be a cbor encoded bytestring")

/-- decode_x5chain: the chain-construction portion of `validate_x5chain`,
stopping right before the orchestrator runs.  It exists to state the
round-trip and duplicate claims about the chain the decoder builds. -/
def decode_x5chain : CborValue → Except ReaderError X5Chain
  | CborValue.bytes bytes =>
    match from_slice_vec_u8 bytes with
    | .error e => .error e
    | .ok der =>
      match NonEmptyVec.try_from [X509.mk der] with
      | some v => .ok ⟨v⟩
      | none => .error ReaderError.nonEmptyVec
  | CborValue.array x509s =>
    match decode_elements x509s with
    | .error e => .error e
    | .ok chain =>
      if has_unique_elements chain then
        match NonEmptyVec.try_from chain with
        | some v => .ok ⟨v⟩
        | none => .error ReaderError.nonEmptyVec
      else
        .error (ReaderError.mdocAuth
          "x5chain header contains at least one duplicate certificate")
  | _ =>
    .error (ReaderError.mdocAuth
      "Expecting x509 certificate in the x5chain to be a cbor encoded bytestring")

/-- The wire decoder factors through `decode_x5chain`: it runs the decode
phase and, only on success, the validation orchestrator on the resulting
chain. -/
theorem validate_x5chain_eq_decode (env : CryptoEnv) (v : CborValue)
    (reg : Option env.TrustAnchorRegistry) :
    validate_x5chain env v reg =
      (decode_x5chain v).map (fun chain => X5Chain.validate env chain reg) := by
  cases v <;> simp only [validate_x5chain, decode_x5chain, Except.map]
  case bytes b =>
    cases from_slice_vec_u8 b with
    | error e => rfl
    | ok der => cases h : NonEmptyVec.try_from [X509.mk der] <;> simp [h]
  case array items =>
    cases decode_elements items with
    | error e => rfl
    | ok chain =>
      by_cases hu : has_unique_elements chain = true
      · simp only [hu, if_true]
        cases h : NonEmptyVec.try_from chain <;> simp [h]
      · simp [hu]

/-- Reading `k` big-endian bytes consumes exactly `k` bytes of input. -/
theorem take_be_length : ∀ {k : Nat} {l : List Nat} {v : Nat} {r : List Nat},
    take_be k l = some (v, r) → r.length + k = l.length := by
  intro k
  induction k with
  | zero =>
    intro l v r h
    simp only [take_be, Option.some.injEq, Prod.mk.injEq] at h
    obtain ⟨-, hr⟩ := h
    subst hr
    simp
  | succ n ih =>
    intro l v r h
    cases l with
    | nil => simp [take_be] at h
    | cons b t =>
      simp only [take_be] at h
      cases ht : take_be n t with
      | none => rw [ht] at h; simp at h
      | some p =>
        obtain ⟨v0, r0⟩ := p
        rw [ht] at h
        simp only [Option.some.injEq, Prod.mk.injEq] at h
        obtain ⟨-, hr⟩ := h
        subst hr
        have := ih ht
        simp only [List.length_cons]
        omega

/-- A successful CBOR unsigned-integer parse consumes at least one byte. -/
theorem parse_uint_consumes : ∀ {l : List Nat} {v : Nat} {r : List Nat},
    parse_uint l = some (v, r) → r.length < l.length := by
  intro l v r h
  cases l with
  | nil => simp [parse_uint] at h
  | cons b t =>
    simp only [parse_uint] at h
    split at h
    · simp only [Option.some.injEq, Prod.mk.injEq] at h
      obtain ⟨-, hr⟩ := h
      subst hr
      simp
    · split at h
      · have := take_be_length h
        simp only [List.length_cons]
        omega
      · split at h
        · have := take_be_length h
          simp only [List.length_cons]
          omega
        · split at h
          · have := take_be_length h
            simp only [List.length_cons]
            omega
          · split at h
            · have := take_be_length h
              simp only [List.length_cons]
              omega
            · simp at h

/-- A successful CBOR array-header parse consumes at least one byte. -/
theorem parse_array_len_consumes : ∀ {l : List Nat} {n : Nat} {r : List Nat},
    parse_array_len l = some (n, r) → r.length < l.length := by
  intro l n r h
  cases l with
  | nil => simp [parse_array_len] at h
  | cons b t =>
    simp only [parse_array_len] at h
    split at h
    · simp only [Option.some.injEq, Prod.mk.injEq] at h
      obtain ⟨-, hr⟩ := h
      subst hr
      simp
    · split at h
      · have := take_be_length h
        simp only [List.length_cons]
        omega
      · split at h
        · have := take_be_length h
          simp only [List.length_cons]
          omega
        · split at h
          · have := take_be_length h
            simp only [List.length_cons]
            omega
          · split at h
            · have := take_be_length h
              simp only [List.length_cons]
              omega
            · simp at h

/-- Parsing `n` byte-sized elements yields `n` values and consumes at least
one input byte per value. -/
theorem parse_u8_list_spec : ∀ {n : Nat} {l vs r : List Nat},
    parse_u8_list n l = some (vs, r) → vs.length = n ∧ n + r.length ≤ l.length := by
  intro n
  induction n with
  | zero =>
    intro l vs r h
    simp only [parse_u8_list, Option.some.injEq, Prod.mk.injEq] at h
    obtain ⟨hv, hr⟩ := h
    subst hv
    subst hr
    simp
  | succ n ih =>
    intro l vs r h
    rw [parse_u8_list] at h
    split at h
    · rename_i v r1 hp
      split at h
      · split at h
        · rename_i vs0 r2 hq
          simp only [Option.some.injEq, Prod.mk.injEq] at h
          obtain ⟨hv, hr⟩ := h
          subst hv
          subst hr
          have h1 := parse_uint_consumes hp
          have h2 := ih hq
          refine ⟨by rw [List.length_cons, h2.1], ?_⟩
          have h2b := h2.2
          omega
        · simp at h
      · simp at h
    · simp at h

/-- Every successful run of the modelled `serde_cbor::from_slice::<Vec<u8>>`
returns strictly fewer bytes than it consumed (at least the array header is
overhead). -/
theorem from_slice_vec_u8_shrink {data vals : List Nat}
    (h : from_slice_vec_u8 data = .ok vals) : vals.length < data.length := by
  rw [from_slice_vec_u8] at h
  split at h
  · rename_i n rest hp
    split at h
    · rename_i vs hq
      simp only [Except.ok.injEq] at h
      subst h
      have h1 := parse_array_len_consumes hp
      have h2 := parse_u8_list_spec hq
      obtain ⟨h2a, h2b⟩ := h2
      simp only [List.length_nil] at h2b
      omega
    · simp at h
  · simp at h

/-- No byte list is a `serde_cbor` encoding of itself: the inner decode the
wire decoder applies to every byte-string payload can never return its own
input. -/
theorem from_slice_vec_u8_ne_self (b : List Nat) : from_slice_vec_u8 b ≠ .ok b :=
  fun h => absurd (from_slice_vec_u8_shrink h) (lt_irrefl _)

/-- Characterization of the uniqueness loop: it succeeds exactly when the
remaining input has no duplicates and avoids everything already seen. -/
theorem has_unique_elements_go_iff {α : Type} [DecidableEq α] :
    ∀ (l seen : List α),
      has_unique_elements_go seen l = true ↔ l.Nodup ∧ ∀ x ∈ l, x ∉ seen := by
  intro l
  induction l with
  | nil => intro seen; simp [has_unique_elements_go]
  | cons x xs ih =>
    intro seen
    rw [has_unique_elements_go]
    by_cases hx : x ∈ seen
    · rw [if_pos hx]
      constructor
      · intro h; cases h
      · rintro ⟨-, hall⟩
        exact absurd hx (hall x (List.mem_cons_self x xs))
    · rw [if_neg hx, ih (x :: seen)]
      simp only [List.nodup_cons, List.mem_cons]
      constructor
      · rintro ⟨hnd, hall⟩
        refine ⟨⟨fun hmem => (hall x hmem) (Or.inl rfl), hnd⟩, ?_⟩
        rintro y (rfl | hy)
        · exact hx
        · exact fun hs => hall y hy (Or.inr hs)
      · rintro ⟨⟨hxx, hnd⟩, hall⟩
        refine ⟨hnd, ?_⟩
        intro y hy hmem
        rcases hmem with rfl | hs
        · exact hxx hy
        · exact hall y (Or.inr hy) hs

/-- has_unique_elements decides exactly the no-duplicates predicate. -/
theorem has_unique_elements_iff_nodup {α : Type} [DecidableEq α] (l : List α) :
    has_unique_elements l = true ↔ l.Nodup := by
  rw [has_unique_elements, has_unique_elements_go_iff]
  simp

/-- sample_env: a concrete collaborator instance used by the witnesses.
Parsing always succeeds (certificates carry no structure the witnesses need),
validity checking finds no problems, anchor lookup finds no anchor, and the
canonical re-encoding of any certificate is a fixed five-byte DER
SEQUENCE. -/
def sample_env : CryptoEnv where
  Cert := Unit
  PubKey := Unit
  Sig := Unit
  TrustAnchor := Unit
  TrustAnchorRegistry := Unit
  cert_from_der := fun _ => .ok ()
  spki_to_key := fun _ => some ()
  signature_raw := fun _ => []
  signature_from_der := fun _ => .ok ()
  tbs_to_der := fun _ => .ok []
  verify := fun _ _ _ => .ok ()
  check_validity_period := fun _ => []
  find_anchor := fun _ _ => .ok none
  validate_with_trust_anchor := fun _ _ => []
  cert_to_der := fun _ => .ok [0x30, 0x03, 0x02, 0x01, 0x01]
  pem_decode := fun b => .ok b

/-- The DER length octets of `n` occupy at most five bytes. -/
theorem length_to_der_length_le (n : Nat) : (length_to_der n).length ≤ 5 := by
  unfold length_to_der
  split_ifs <;> simp

/-- For every length of at least two, the DER length octets differ in length
from the value they encode, hence cannot coincide with a byte list of that
length. -/
theorem length_to_der_length_ne (n : Nat) (h2 : 2 ≤ n) :
    (length_to_der n).length ≠ n := by
  unfold length_to_der
  split_ifs <;> simp <;> omega

/-- What `with_der` actually stores: the builder appends an `X509` holding
the DER length octets of the canonical re-encoding, and whenever that
re-encoding is at least two bytes long (every real DER certificate is), the
stored bytes differ from the re-encoding. -/
theorem with_der_stores_length_octets (env : CryptoEnv) (b : Builder)
    (data : List Nat) (b2 : Builder)
    (h : Builder.with_der env b data = .ok b2) :
    ∃ (cert : env.Cert) (der : List Nat),
      env.cert_from_der data = .ok cert ∧ env.cert_to_der cert = .ok der ∧
      b2.certs = b.certs ++ [X509.mk (length_to_der der.length)] ∧
      (2 ≤ der.length → length_to_der der.length ≠ der) := by
  rw [Builder.with_der] at h
  split at h
  · simp at h
  · rename_i cert hc
    split at h
    · simp at h
    · rename_i der hd
      simp only [Except.ok.injEq] at h
      subst h
      refine ⟨cert, der, hc, hd, rfl, ?_⟩
      intro hlen heq
      exact length_to_der_length_ne der.length hlen (congrArg List.length heq)

/-- The corresponding fact for `with_pem`, after the PEM decode step. -/
theorem with_pem_stores_length_octets (env : CryptoEnv) (b : Builder)
    (data : List Nat) (b2 : Builder)
    (h : Builder.with_pem env b data = .ok b2) :
    ∃ (pem : List Nat) (cert : env.Cert) (der : List Nat),
      env.pem_decode data = .ok pem ∧
      env.cert_from_der pem = .ok cert ∧ env.cert_to_der cert = .ok der ∧
      b2.certs = b.certs ++ [X509.mk (length_to_der der.length)] ∧
      (2 ≤ der.length → length_to_der der.length ≠ der) := by
  rw [Builder.with_pem] at h
  split at h
  · simp at h
  · rename_i pem hp
    split at h
    · simp at h
    · rename_i cert hc
      split at h
      · simp at h
      · rename_i der hd
        simp only [Except.ok.injEq] at h
        subst h
        refine ⟨pem, cert, der, hp, hc, hd, rfl, ?_⟩
        intro hlen heq
        exact length_to_der_length_ne der.length hlen (congrArg List.length heq)

/-- C2: the claim states that `with_pem` and `with_der` append an `X509`
whose stored bytes are the canonical DER re-encoding of the parsed
certificate.  The code instead appends `Length::to_der` of the byte count
returned by `encode_to_vec` — the DER length octets of the re-encoding, not
the re-encoding.  At a collaborator whose canonical re-encoding is the
five-byte DER SEQUENCE `30 03 02 01 01`, both builder entry points append an
`X509` holding the single byte `05`, which is not that re-encoding.  (The
stored bytes also contradict the rest of the module, which parses
`X509.bytes` as a DER certificate.) -/
theorem claim_c2_builder_stores_length_octets :
    Builder.with_der sample_env (Builder.mk []) [0x30, 0x03, 0x02, 0x01, 0x01] =
      .ok (Builder.mk [X509.mk [0x05]]) ∧
    Builder.with_pem sample_env (Builder.mk []) [0x30, 0x03, 0x02, 0x01, 0x01] =
      .ok (Builder.mk [X509.mk [0x05]]) ∧
    [(0x05 : Nat)] ≠ [0x30, 0x03, 0x02, 0x01, 0x01] := by
  refine ⟨rfl, rfl, by decide⟩

/-- A successful element decode starting with a byte string determines the
head of the result through the inner `serde_cbor` decode. -/
theorem decode_elements_cons_bytes {b : List Nat} {rest : List CborValue}
    {certs : List X509}
    (h : decode_elements (CborValue.bytes b :: rest) = .ok certs) :
    ∃ der tail, from_slice_vec_u8 b = .ok der ∧ certs = X509.mk der :: tail := by
  rw [decode_elements] at h
  split at h
  · simp at h
  · rename_i der hf
    split at h
    · simp at h
    · rename_i tail ht
      simp only [Except.ok.injEq] at h
      exact ⟨der, tail, hf, h.symm⟩

/-- A successful decode of the single byte-string form yields a one-element
chain produced by the inner `serde_cbor` decode of the payload. -/
theorem decode_x5chain_bytes_ok {b : List Nat} {out : X5Chain}
    (h : decode_x5chain (CborValue.bytes b) = .ok out) :
    ∃ der, from_slice_vec_u8 b = .ok der ∧ out.certs = [X509.mk der] := by
  rw [decode_x5chain] at h
  split at h
  · simp at h
  · rename_i der hf
    simp only [NonEmptyVec.try_from, Except.ok.injEq] at h
    exact ⟨der, hf, by rw [← h]; exact rfl⟩

/-- A successful decode of the array form returns exactly the certificates
produced by the element loop. -/
theorem decode_x5chain_array_ok {elems : List CborValue} {out : X5Chain}
    (h : decode_x5chain (CborValue.array elems) = .ok out) :
    decode_elements elems = .ok out.certs := by
  rw [decode_x5chain] at h
  split at h
  · simp at h
  · rename_i chain hd
    split at h
    · cases chain with
      | nil => simp [NonEmptyVec.try_from] at h
      | cons x xs =>
        simp only [NonEmptyVec.try_from, Except.ok.injEq] at h
        rw [hd, ← h]
        exact rfl
    · simp at h

/-- Decoding the encoder output never reconstructs the original chain: the
decoder applies a second CBOR decode to every byte-string payload, and no
byte list is a CBOR encoding of itself. -/
theorem decode_into_cbor_never_roundtrips (chain out : X5Chain)
    (h : decode_x5chain (X5Chain.into_cbor chain) = .ok out) :
    out.certs ≠ chain.certs := by
  intro heq
  rcases hc : chain.certs with _ | ⟨a, rest⟩
  · exact chain.v.nonempty hc
  · rcases rest with _ | ⟨b, t⟩
    · rw [show X5Chain.into_cbor chain = CborValue.bytes a.bytes by
        simp [X5Chain.into_cbor, hc]] at h
      obtain ⟨der, hf, hout⟩ := decode_x5chain_bytes_ok h
      rw [heq, hc] at hout
      have ha : a = X509.mk der := by simpa using hout
      rw [show der = a.bytes from by rw [ha]] at hf
      exact from_slice_vec_u8_ne_self a.bytes hf
    · rw [show X5Chain.into_cbor chain =
          CborValue.array ((a :: b :: t).map (fun x509 => CborValue.bytes x509.bytes)) by
        simp [X5Chain.into_cbor, hc]] at h
      have hdec := decode_x5chain_array_ok h
      rw [heq, hc] at hdec
      simp only [List.map_cons] at hdec
      obtain ⟨der, tail, hf, hcons⟩ := decode_elements_cons_bytes hdec
      obtain ⟨ha, -⟩ : a = X509.mk der ∧ b :: t = tail := by simpa using hcons
      rw [show der = a.bytes from by rw [ha]] at hf
      exact from_slice_vec_u8_ne_self a.bytes hf

/-- A one-certificate chain holding a five-byte DER SEQUENCE, used as the
concrete round-trip failing input. -/
def c3_chain : X5Chain :=
  ⟨⟨[X509.mk [0x30, 0x03, 0x02, 0x01, 0x01]], List.cons_ne_nil _ _⟩⟩

/-- C3: the claim states that encoding a chain with `into_cbor` and decoding
the result with the wire decoder reconstructs the chain byte for byte.  It
does not: the encoder emits the stored DER directly as a byte-string payload,
while the decoder runs `serde_cbor::from_slice::<Vec<u8>>` on that payload, a
second CBOR decoding layer, so the decode of the encoder output fails with a
terminal CBOR error on this one-certificate chain (and, by
`decode_into_cbor_never_roundtrips`, can never return the original chain for
any chain of any length). -/
theorem claim_c3_roundtrip_fails :
    decode_x5chain (X5Chain.into_cbor c3_chain) = .error ReaderError.cborDecodingError ∧
    ∀ (env : CryptoEnv) (reg : Option env.TrustAnchorRegistry),
      validate_x5chain env (X5Chain.into_cbor c3_chain) reg =
        .error ReaderError.cborDecodingError := by
  refine ⟨rfl, fun env reg => ?_⟩
  rw [validate_x5chain_eq_decode]
  rfl

/-- The modelled `serde_cbor` decode only ever fails with the CBOR decoding
error. -/
theorem from_slice_vec_u8_error {b : List Nat} {e : ReaderError}
    (h : from_slice_vec_u8 b = .error e) : e = ReaderError.cborDecodingError := by
  rw [from_slice_vec_u8] at h
  split at h
  · split at h
    · simp at h
    · simp only [Except.error.injEq] at h
      exact h.symm
  · simp only [Except.error.injEq] at h
    exact h.symm

/-- Two equal entries at distinct positions are exactly a violation of
`Nodup`. -/
theorem dup_positions_iff_not_nodup {α : Type} (l : List α) :
    (∃ i j : Fin l.length, i ≠ j ∧ l.get i = l.get j) ↔ ¬ l.Nodup := by
  rw [List.nodup_iff_injective_get]
  constructor
  · rintro ⟨i, j, hij, heq⟩ hinj
    exact hij (hinj heq)
  · intro hninj
    obtain ⟨i, j, heq, hij⟩ := Function.not_injective_iff.mp hninj
    exact ⟨i, j, hij, heq⟩

/-- When the element loop succeeds but its output has a duplicate, the wire
decoder stops with the duplicate-certificate error, whatever the validation
environment is. -/
theorem validate_x5chain_array_dup (env : CryptoEnv)
    (reg : Option env.TrustAnchorRegistry) (elems : List CborValue)
    (certs : List X509) (hdec : decode_elements elems = .ok certs)
    (hnd : ¬ certs.Nodup) :
    validate_x5chain env (CborValue.array elems) reg =
      .error (ReaderError.mdocAuth
        "x5chain header contains at least one duplicate certificate") := by
  have hu : has_unique_elements certs = false := by
    rcases hb : has_unique_elements certs with _ | _
    · rfl
    · exact absurd ((has_unique_elements_iff_nodup certs).mp hb) hnd
  rw [validate_x5chain, hdec]
  simp [hu]

/-- When the element loop succeeds and its output has no duplicate, the wire
decoder never reports the duplicate-certificate error. -/
theorem validate_x5chain_array_no_dup (env : CryptoEnv)
    (reg : Option env.TrustAnchorRegistry) (elems : List CborValue)
    (certs : List X509) (hdec : decode_elements elems = .ok certs)
    (hnd : certs.Nodup) :
    validate_x5chain env (CborValue.array elems) reg ≠
      .error (ReaderError.mdocAuth
        "x5chain header contains at least one duplicate certificate") := by
  have hu : has_unique_elements certs = true :=
    (has_unique_elements_iff_nodup certs).mpr hnd
  rw [validate_x5chain, hdec]
  cases certs with
  | nil => simp [hu, NonEmptyVec.try_from]
  | cons x xs => simp [hu, NonEmptyVec.try_from]

/-- C1: `X5Chain::validate` performs all passes without short-circuiting and
returns the concatenation of all discovered errors in order: one signature
error per failing adjacent pair (the pass continuing regardless), then the
per-certificate validity errors in chain order (a DER parse failure appending
its error and skipping that validity sub-check), then the anchor errors for
the last certificate; concatenation performs no deduplication.  The three
pass functions restate the per-item behaviour literally; the theorem shows
the sequentially accumulated error vector of `validate` equals their
concatenation for every chain, registry and collaborator environment. -/
theorem claim_c1_validate_concatenates_passes (env : CryptoEnv)
    (chain : X5Chain) (registry : Option env.TrustAnchorRegistry) :
    X5Chain.validate env chain registry =
      signature_pass env chain.certs ++ validity_pass env chain.certs ++
        anchor_pass env chain.certs registry :=
  validate_eq_passes env chain registry

/-- C4: a wire array whose decoded entries contain two byte-identical
certificates is rejected with the single terminal duplicate-certificate
error, for every validation environment and registry (so before the
orchestrator contributes anything, and with no validation error produced);
and the single byte-string form never reports that error, the uniqueness
check not being performed there. -/
theorem claim_c4_duplicates_rejected :
    (∀ (env : CryptoEnv) (reg : Option env.TrustAnchorRegistry)
      (elems : List CborValue) (certs : List X509),
      decode_elements elems = .ok certs →
      (∃ i j : Fin certs.length, i ≠ j ∧ certs.get i = certs.get j) →
      validate_x5chain env (CborValue.array elems) reg =
        .error (ReaderError.mdocAuth
          "x5chain header contains at least one duplicate certificate")) ∧
    (∀ (env : CryptoEnv) (reg : Option env.TrustAnchorRegistry) (b : List Nat),
      validate_x5chain env (CborValue.bytes b) reg ≠
        .error (ReaderError.mdocAuth
          "x5chain header contains at least one duplicate certificate")) := by
  constructor
  · intro env reg elems certs hdec hdup
    exact validate_x5chain_array_dup env reg elems certs hdec
      ((dup_positions_iff_not_nodup certs).mp hdup)
  · intro env reg b h
    rw [validate_x5chain] at h
    split at h
    · rename_i e hf
      rw [from_slice_vec_u8_error hf] at h
      simp at h
    · simp [NonEmptyVec.try_from] at h

/-- C4 witness: a two-element wire array whose payloads both decode to the
byte list `[1]` is rejected with the duplicate error under the sample
environment. -/
theorem claim_c4_witness :
    validate_x5chain sample_env
      (CborValue.array [CborValue.bytes [0x81, 1], CborValue.bytes [0x81, 1]]) none =
      .error (ReaderError.mdocAuth
        "x5chain header contains at least one duplicate certificate") :=
  claim_c4_duplicates_rejected.1 sample_env none
    [CborValue.bytes [0x81, 1], CborValue.bytes [0x81, 1]]
    [X509.mk [1], X509.mk [1]] rfl
    ⟨⟨0, by decide⟩, ⟨1, by decide⟩, by decide, by decide⟩

/-- An element list containing a non-byte-string entry always makes the
element loop fail with some terminal error. -/
theorem decode_elements_fails (elems : List CborValue)
    (h : ∃ x ∈ elems, x.is_bytes = false) :
    ∃ e, decode_elements elems = .error e := by
  induction elems with
  | nil => obtain ⟨x, hx, -⟩ := h; simp at hx
  | cons a rest ih =>
    obtain ⟨x, hx, hxb⟩ := h
    cases a
    case bytes b =>
      have hxr : x ∈ rest := by
        rcases List.mem_cons.mp hx with rfl | hr
        · simp [CborValue.is_bytes] at hxb
        · exact hr
      cases hf : from_slice_vec_u8 b with
      | error e => exact ⟨e, by rw [decode_elements, hf]⟩
      | ok der =>
        obtain ⟨e, he⟩ := ih ⟨x, hxr, hxb⟩
        exact ⟨e, by rw [decode_elements, hf, he]⟩
    all_goals exact ⟨_, rfl⟩

/-- C5: a CBOR value that is neither a byte string nor an array is rejected
by the wire decoder with the terminal shape error, for every validation
environment and registry (the orchestrator is never consulted); and an array
containing a non-byte-string element is rejected with a terminal decode
error that likewise does not depend on the validation environment. -/
theorem claim_c5_bad_shapes_rejected :
    (∀ v : CborValue, v.is_bytes_or_array = false →
      ∀ (env : CryptoEnv) (reg : Option env.TrustAnchorRegistry),
        validate_x5chain env v reg =
          .error (ReaderError.mdocAuth
            "Expecting x509 certificate in the x5chain to be a cbor encoded bytestring")) ∧
    (∀ elems : List CborValue, (∃ x ∈ elems, x.is_bytes = false) →
      ∃ e : ReaderError, ∀ (env : CryptoEnv) (reg : Option env.TrustAnchorRegistry),
        validate_x5chain env (CborValue.array elems) reg = .error e) := by
  constructor
  · intro v hv env reg
    cases v with
    | bytes b => simp [CborValue.is_bytes_or_array] at hv
    | array items => simp [CborValue.is_bytes_or_array] at hv
    | null => rfl
    | boolean b => rfl
    | integer i => rfl
    | text s => rfl
    | map pairs => rfl
  · intro elems h
    obtain ⟨e, he⟩ := decode_elements_fails elems h
    exact ⟨e, fun env reg => by rw [validate_x5chain, he]⟩

/-- C5 witness: the integer 42 is rejected with the shape error under the
sample environment, and a one-element array holding an integer is rejected
with a terminal error. -/
theorem claim_c5_witness :
    validate_x5chain sample_env (CborValue.integer 42) none =
      .error (ReaderError.mdocAuth
        "Expecting x509 certificate in the x5chain to be a cbor encoded bytestring") ∧
    ∃ e : ReaderError, ∀ (env : CryptoEnv) (reg : Option env.TrustAnchorRegistry),
      validate_x5chain env (CborValue.array [CborValue.integer 0]) reg = .error e :=
  ⟨claim_c5_bad_shapes_rejected.1 (CborValue.integer 42) rfl sample_env none,
   claim_c5_bad_shapes_rejected.2 [CborValue.integer 0]
     ⟨CborValue.integer 0, List.mem_cons_self _ _, rfl⟩⟩

/-- C6: a chain of length exactly one encodes as the single CBOR byte string
holding exactly the stored certificate bytes, and a chain of length at least
two encodes as the CBOR array of the per-certificate byte strings in chain
order. -/
theorem claim_c6_into_cbor_shape (chain : X5Chain) :
    (∀ c : X509, chain.certs = [c] → chain.into_cbor = CborValue.bytes c.bytes) ∧
    (2 ≤ chain.certs.length →
      chain.into_cbor =
        CborValue.array (chain.certs.map (fun x509 => CborValue.bytes x509.bytes))) := by
  constructor
  · intro c hc
    simp [X5Chain.into_cbor, hc]
  · intro hlen
    rcases hl : chain.certs with _ | ⟨a, _ | ⟨b, t⟩⟩
    · rw [hl] at hlen; simp at hlen
    · rw [hl] at hlen; simp at hlen
    · simp [X5Chain.into_cbor, hl]

/-- A one-certificate chain used by several witnesses. -/
def chain_one : X5Chain := ⟨⟨[X509.mk [1]], List.cons_ne_nil _ _⟩⟩

/-- A two-certificate chain used by several witnesses. -/
def chain_two : X5Chain := ⟨⟨[X509.mk [1], X509.mk [2]], List.cons_ne_nil _ _⟩⟩

/-- C6 witness: the two encoder shapes at concrete one- and two-certificate
chains. -/
theorem claim_c6_witness :
    chain_one.into_cbor = CborValue.bytes [1] ∧
    chain_two.into_cbor =
      CborValue.array (chain_two.certs.map (fun x509 => CborValue.bytes x509.bytes)) :=
  ⟨(claim_c6_into_cbor_shape chain_one).1 (X509.mk [1]) rfl,
   (claim_c6_into_cbor_shape chain_two).2 (by decide)⟩

/-- C7: `Builder::build` succeeds and returns a chain carrying exactly the
accumulated certificates whenever at least one was accumulated, and fails
with the non-empty error whenever zero were. -/
theorem claim_c7_build_succeeds_iff_nonempty (b : Builder) :
    (b.certs ≠ [] →
      ∃ chain : X5Chain, b.build = .ok chain ∧ chain.certs = b.certs) ∧
    (b.certs = [] →
      b.build = .error "at least one certificate must be given to the builder") := by
  constructor
  · intro h
    rcases hb : b.certs with _ | ⟨x, xs⟩
    · exact absurd hb h
    · refine ⟨⟨⟨x :: xs, List.cons_ne_nil x xs⟩⟩, ?_, by exact rfl⟩
      unfold Builder.build
      rw [hb]
      exact rfl
  · intro h
    unfold Builder.build
    rw [h]
    rfl

/-- C7 witness: building from one accumulated certificate succeeds with that
chain; building from none fails. -/
theorem claim_c7_witness :
    (∃ chain : X5Chain,
      (Builder.mk [X509.mk [1]]).build = .ok chain ∧ chain.certs = [X509.mk [1]]) ∧
    (Builder.mk []).build = .error "at least one certificate must be given to the builder" :=
  ⟨(claim_c7_build_succeeds_iff_nonempty (Builder.mk [X509.mk [1]])).1 (by simp),
   (claim_c7_build_succeeds_iff_nonempty (Builder.mk [])).2 rfl⟩

/-- C8: whenever the last certificate of the chain parses and `find_anchor`
honors its contract of returning no anchor for no registry, validating with
no registry puts the no-matching-trust-anchor error in the result; and for a
one-certificate chain whose certificate parses, has no validity errors and no
anchor, the result is exactly that single error. -/
theorem claim_c8_no_registry_anchor_error (env : CryptoEnv) (chain : X5Chain) :
    (∀ (x : X509) (cert : env.Cert),
      chain.certs.getLast? = some x →
      env.cert_from_der x.bytes = .ok cert →
      env.find_anchor cert none = .ok none →
      X509Error.validationError "No matching trust anchor found" ∈
        X5Chain.validate env chain none) ∧
    (∀ (x : X509) (cert : env.Cert),
      chain.certs = [x] →
      env.cert_from_der x.bytes = .ok cert →
      env.check_validity_period cert = [] →
      env.find_anchor cert none = .ok none →
      X5Chain.validate env chain none =
        [X509Error.validationError "No matching trust anchor found"]) := by
  constructor
  · intro x cert hl hc hf
    have ha : anchor_pass env chain.certs none =
        [X509Error.validationError "No matching trust anchor found"] := by
      simp only [anchor_pass, hl, hc, hf]
    rw [validate_eq_passes, ha]
    simp
  · intro x cert hc1 hder hval hf
    rw [validate_eq_passes, hc1]
    have h1 : signature_pass env [x] = [] := rfl
    have h2 : validity_pass env [x] = [] := by
      simp [validity_pass, hder, hval]
    have h3 : anchor_pass env [x] none =
        [X509Error.validationError "No matching trust anchor found"] := by
      simp only [anchor_pass, List.getLast?_singleton, hder, hf]
    rw [h1, h2, h3]
    rfl

/-- C8 witness: the one-certificate chain under the sample environment (which
parses everything, reports no validity problems and finds no anchor) yields
exactly the no-matching-trust-anchor error. -/
theorem claim_c8_witness :
    X5Chain.validate sample_env chain_one none =
      [X509Error.validationError "No matching trust anchor found"] :=
  (claim_c8_no_registry_anchor_error sample_env chain_one).2
    (X509.mk [1]) () rfl rfl rfl rfl

/-- Every error of the signature pass comes from some `check_signature`
failure. -/
theorem mem_signature_pass (env : CryptoEnv) :
    ∀ (certs : List X509) (e : X509Error), e ∈ signature_pass env certs →
      ∃ t i, check_signature env t i = .error e
  | [], e, h => by simp [signature_pass] at h
  | [a], e, h => by simp [signature_pass] at h
  | a :: b :: rest, e, h => by
    rw [signature_pass] at h
    rcases List.mem_append.mp h with h1 | h2
    · cases hcs : check_signature env a b with
      | ok u => rw [hcs] at h1; simp at h1
      | error e2 =>
        rw [hcs] at h1
        simp only [List.mem_singleton] at h1
        exact ⟨a, b, by rw [hcs, h1]⟩
    · exact mem_signature_pass env (b :: rest) e h2

/-- Every error of the validity pass is either a collaborator validity error
or a certificate parse error. -/
theorem mem_validity_pass (env : CryptoEnv) :
    ∀ (certs : List X509) (e : X509Error), e ∈ validity_pass env certs →
      (∃ c, e ∈ env.check_validity_period c) ∨
        (∃ b, env.cert_from_der b = .error e)
  | [], e, h => by simp [validity_pass] at h
  | x :: rest, e, h => by
    rw [validity_pass] at h
    rcases List.mem_append.mp h with h1 | h2
    · cases hcd : env.cert_from_der x.bytes with
      | ok c =>
        rw [hcd] at h1
        exact Or.inl ⟨c, h1⟩
      | error e2 =>
        rw [hcd] at h1
        simp only [List.mem_singleton] at h1
        exact Or.inr ⟨x.bytes, by rw [hcd, h1]⟩
    · exact mem_validity_pass env rest e h2

/-- C9: the defensive empty-chain branch of `validate` is unreachable.  For
every chain (the type invariant gives length at least one) and every
environment whose collaborator outputs never happen to carry the reserved
empty-chain message themselves, the result of `validate` never contains the
empty-chain error. -/
theorem claim_c9_empty_chain_error_unreachable (env : CryptoEnv)
    (chain : X5Chain) (reg : Option env.TrustAnchorRegistry)
    (hsig : ∀ t i e, check_signature env t i = .error e →
      e ≠ X509Error.validationError "Empty certificate chain")
    (hder : ∀ b e, env.cert_from_der b = .error e →
      e ≠ X509Error.validationError "Empty certificate chain")
    (hval : ∀ c,
      X509Error.validationError "Empty certificate chain" ∉ env.check_validity_period c)
    (hanc : ∀ c r e, env.find_anchor c r = .error e →
      e ≠ X509Error.validationError "Empty certificate chain")
    (hvta : ∀ x a,
      X509Error.validationError "Empty certificate chain" ∉
        env.validate_with_trust_anchor x a) :
    X509Error.validationError "Empty certificate chain" ∉
      X5Chain.validate env chain reg := by
  rw [validate_eq_passes]
  intro hmem
  rcases List.mem_append.mp hmem with hsv | ha
  · rcases List.mem_append.mp hsv with hs | hv
    · obtain ⟨t, i, hti⟩ := mem_signature_pass env chain.certs _ hs
      exact hsig t i _ hti rfl
    · rcases mem_validity_pass env chain.certs _ hv with ⟨c, hc⟩ | ⟨b, hb⟩
      · exact hval c hc
      · exact hder b _ hb rfl
  · rcases hl : chain.certs with _ | ⟨a0, t0⟩
    · exact chain.v.nonempty hl
    · rw [hl] at ha
      cases hgl : (a0 :: t0).getLast? with
      | none => exact absurd (List.getLast?_eq_none_iff.mp hgl) (List.cons_ne_nil a0 t0)
      | some x =>
        simp only [anchor_pass, hgl] at ha
        cases hcd : env.cert_from_der x.bytes with
        | error e2 =>
          simp only [hcd, List.mem_singleton] at ha
          exact hder x.bytes _ (by rw [hcd, ha]) rfl
        | ok cert =>
          simp only [hcd] at ha
          cases hfa : env.find_anchor cert reg with
          | error e2 =>
            simp only [hfa, List.mem_singleton] at ha
            exact hanc cert reg _ (by rw [hfa, ha]) rfl
          | ok o =>
            simp only [hfa] at ha
            cases o with
            | none =>
              simp only [List.mem_singleton] at ha
              exact absurd ha (by decide)
            | some anchor => exact hvta x anchor ha

/-- C9 witness: under the sample environment (whose collaborators never fail
and never emit the reserved message), the one-certificate chain validates to
a list that does not contain the empty-chain error. -/
theorem claim_c9_witness :
    X509Error.validationError "Empty certificate chain" ∉
      X5Chain.validate sample_env chain_one none :=
  claim_c9_empty_chain_error_unreachable sample_env chain_one none
    (fun t i e h => absurd h (by rw [show check_signature sample_env t i = .ok () from rfl]; simp))
    (fun b e h => absurd h (by simp [sample_env]))
    (fun c => by simp [sample_env])
    (fun c r e h => absurd h (by simp [sample_env]))
    (fun x a => by simp [sample_env])

/-- C10: `has_unique_elements` returns true exactly when no two distinct
positions of the input hold equal elements; consequently the wire decoder
rejects a successfully decoded array with the duplicate error exactly when
some pair of decoded certificates is byte-identical. -/
theorem claim_c10_has_unique_elements_correct :
    (∀ {α : Type} [DecidableEq α] (l : List α),
      has_unique_elements l = true ↔
        ∀ i j : Fin l.length, l.get i = l.get j → i = j) ∧
    (∀ (env : CryptoEnv) (reg : Option env.TrustAnchorRegistry)
      (elems : List CborValue) (certs : List X509),
      decode_elements elems = .ok certs →
      (validate_x5chain env (CborValue.array elems) reg =
          .error (ReaderError.mdocAuth
            "x5chain header contains at least one duplicate certificate")
        ↔ ∃ i j : Fin certs.length, i ≠ j ∧ certs.get i = certs.get j)) := by
  constructor
  · intro α _ l
    rw [has_unique_elements_iff_nodup, List.nodup_iff_injective_get]
    exact Iff.rfl
  · intro env reg elems certs hdec
    constructor
    · intro heq
      rw [dup_positions_iff_not_nodup]
      intro hnd
      exact validate_x5chain_array_no_dup env reg elems certs hdec hnd heq
    · intro hdup
      exact validate_x5chain_array_dup env reg elems certs hdec
        ((dup_positions_iff_not_nodup certs).mp hdup)

/-- C10 witness: a decoded pair of byte-identical certificates makes the
decoder report the duplicate error. -/
theorem claim_c10_witness :
    validate_x5chain sample_env
      (CborValue.array [CborValue.bytes [0x81, 2], CborValue.bytes [0x81, 2]]) none =
      .error (ReaderError.mdocAuth
        "x5chain header contains at least one duplicate certificate") :=
  (claim_c10_has_unique_elements_correct.2 sample_env none
      [CborValue.bytes [0x81, 2], CborValue.bytes [0x81, 2]]
      [X509.mk [2], X509.mk [2]] rfl).mpr
    ⟨⟨0, by decide⟩, ⟨1, by decide⟩, by decide, by decide⟩
